import Mathlib

/-
Verification of the scheduling/protocol client variants in this repository:
  client.py            (Best-Fit scheduling client)
  client_moto.py       (minimal "moto" client)
  ds-test/client.py    (ARAS client)
  ds-test/aras_client.py (ARAS client, extended variant)

Shallow embedding conventions:
  * Python arbitrary-precision integers are modelled as `Int`.
  * Python floats are modelled as exact rationals `ℚ`; every claim settled here
    concerns the algebraic form of the scoring formulas, not IEEE rounding.
  * Python strings handled by the transport layer are modelled as `List Char`
    (`Str`), with structural re-implementations of `str.strip`, `str.split()`,
    `str.split('\n')` and `int(...)` so that all parsing is kernel-computable.
  * A raised-and-uncaught Python exception (ValueError / IndexError on a
    record field) is modelled as `Except.error ()`.
  * A socket is modelled by the list of byte chunks that successive `recv`
    calls return; an exhausted list (or an empty chunk) models a closed
    connection (`recv` returning an empty byte string, which is also the
    only way the source loops that read to exhaustion can stop).
-/

/-! # Basic string utilities (models of the Python `str` operations used) -/

abbrev Str := List Char

/-- Whitespace characters recognised by the model of Python `str.strip` /
`str.split()`. -/
def isWS (c : Char) : Bool :=
  c = ' ' || c = '\n' || c = '\t' || c = '\r'

/-- Drop leading whitespace. -/
def trimL : Str → Str
  | [] => []
  | c :: cs => if isWS c then trimL cs else c :: cs

/-- Model of Python `str.strip()`: drop leading and trailing whitespace. -/
def pyStrip (s : Str) : Str :=
  ((trimL ((trimL s).reverse)).reverse)

/-- Auxiliary for `pySplitWS` (accumulates the current token reversed). -/
def splitWSAux : Str → Str → List Str
  | [], acc => if acc = [] then [] else [acc.reverse]
  | c :: cs, acc =>
      if isWS c then
        if acc = [] then splitWSAux cs [] else acc.reverse :: splitWSAux cs []
      else splitWSAux cs (c :: acc)

/-- Model of Python `str.split()` (no argument): split on whitespace runs,
discarding empty tokens. -/
def pySplitWS (s : Str) : List Str := splitWSAux s []

/-- Auxiliary for `splitNL` (accumulates the current piece reversed). -/
def splitNLAux : Str → Str → List Str
  | [], acc => [acc.reverse]
  | c :: cs, acc =>
      if c = '\n' then acc.reverse :: splitNLAux cs [] else splitNLAux cs (c :: acc)

/-- Model of Python `str.split('\n')`: split on newline, keeping empty pieces;
the result is always non-empty. -/
def splitNL (s : Str) : List Str := splitNLAux s []

/-- Inverse of `splitNL`: model of Python `'\n'.join(...)`. -/
def joinNL : List Str → Str
  | [] => []
  | [l] => l
  | l :: ls => l ++ '\n' :: joinNL ls

/-- Auxiliary digit accumulator for `pyInt`; fails on a non-digit. -/
def digitsToNat : Str → Nat → Option Nat
  | [], acc => some acc
  | c :: cs, acc =>
      if c.isDigit then digitsToNat cs (acc * 10 + (c.toNat - 48)) else none

/-- Model of Python `int(s)`: optional surrounding whitespace, optional sign,
then at least one decimal digit; `none` models a raised `ValueError`. -/
def pyInt (s : Str) : Option Int :=
  match pyStrip s with
  | '-' :: ds => if ds = [] then none else (digitsToNat ds 0).map (fun n => -(n : Int))
  | '+' :: ds => if ds = [] then none else (digitsToNat ds 0).map (fun n => (n : Int))
  | ds => if ds = [] then none else (digitsToNat ds 0).map (fun n => (n : Int))

/-- Boolean model of Python `str.startswith`: first argument is the string,
second the pattern. -/
def startsWithC : Str → Str → Bool
  | _, [] => true
  | [], _ :: _ => false
  | c :: cs, p :: ps => c = p && startsWithC cs ps

/-- Pack a character-list back into a `String` (the parsed record fields are
kept as `String` for readability of the scheduler-level statements). -/
def strOf (cs : Str) : String := String.mk cs

/-- `str.strip()` at the `String` level. -/
def pyStripS (s : String) : String := strOf (pyStrip s.toList)

/-- The byte stream obtained by concatenating all chunks a socket delivers. -/
def flatChunks (chunks : List Str) : Str := chunks.flatten

/-! # Stable descending sort

Python's `list.sort(key=..., reverse=True)` is a stable descending sort; the
scheduler variants use it and then take the first element.  `sortDescBy`
computes exactly that result: among equal keys, elements keep their original
relative order. -/

/-- Insert `x` into a descending-sorted list, after all strictly greater keys
and before all equal-or-smaller keys. -/
def insertDescBy (key : α → ℚ) (x : α) : List α → List α
  | [] => [x]
  | y :: ys => if key x < key y then y :: insertDescBy key x ys else x :: y :: ys

/-- Stable descending sort by a rational key (model of
`list.sort(key=..., reverse=True)`). -/
def sortDescBy (key : α → ℚ) : List α → List α
  | [] => []
  | x :: xs => insertDescBy key x (sortDescBy key xs)

/-! # Protocol events

A session trace is the sequence of messages the client sends and the lines it
consumes, in program order; used for the acknowledgment-ordering claim. -/

inductive Ev where
  | send (msg : String)
  | recv (msg : String)
deriving DecidableEq, Repr

/-- No line listed in `records` is consumed before the first `OK` the client
sends: every event strictly before the first `send "OK"` is not a `recv` of a
record line. -/
def noRecordBeforeOK (tr : List Ev) (records : List String) : Prop :=
  ∀ e ∈ tr.takeWhile (fun e => decide (e ≠ Ev.send "OK")), ∀ r ∈ records, e ≠ Ev.recv r

/-- The record lines of a bulk block presented as a line list: everything
before the first line whose stripped form is the sentinel `"."`. -/
def linesBeforeDot (ls : List String) : List String :=
  ls.takeWhile (fun l => decide (pyStripS l ≠ "."))

/-! # client_moto.py -/

namespace Moto

/-- `ServerInfo` of client_moto.py (fields bound from one record line;
`load` is `waiting_jobs + running_jobs` as computed in `__init__`). -/
structure ServerInfo where
  type : String
  id : Int
  state : String
  cores : Int
  mem : Int
  disk : Int
  waiting_jobs : Int
  running_jobs : Int
deriving DecidableEq, Repr

/-- `self.load` of client_moto.py. -/
def ServerInfo.load (s : ServerInfo) : Int := s.waiting_jobs + s.running_jobs

/-- `ServerInfo.can_host` of client_moto.py. -/
def can_host (s : ServerInfo) (c m d : Int) : Bool :=
  c ≤ s.cores && m ≤ s.mem && d ≤ s.disk

/-- The candidate loop of `moto_choose_server`: `best_score` starts at
`float("inf")`, modelled by `none`; scores are integer-valued. -/
def motoLoop (c m d : Int) : List ServerInfo → Option (String × Int) → Option Int →
    Option (String × Int)
  | [], best, _ => best
  | s :: rest, best, bestScore =>
      if can_host s c m d then
        let score : Int := s.load + (if s.state = "inactive" ∨ s.state = "booting" then 5000 else 0)
          + s.load * 2
        if (match bestScore with | none => true | some b => score < b) then
          motoLoop c m d rest (some (s.type, s.id)) (some score)
        else motoLoop c m d rest best bestScore
      else motoLoop c m d rest best bestScore

/-- `moto_choose_server` of client_moto.py.  The job request tuple is
`(job_id, req_core, req_mem, req_disk, est_runtime)`.  When no server passed
the resource check and the server list is non-empty, the source falls back to
the first server of the list. -/
def moto_choose_server (jobReq : Int × Int × Int × Int × Int)
    (servers : List ServerInfo) : Option (String × Int) :=
  match motoLoop jobReq.2.1 jobReq.2.2.1 jobReq.2.2.2.1 servers none none with
  | some best => some best
  | none => servers.head?.map (fun s => (s.type, s.id))

/-- The events of one `GETS All` exchange in `run_client` of client_moto.py:
send the query, read the header line, read all `n` record lines, and only then
send `OK` and read one more line.  `incoming` is the list of lines the server
delivers (a `readline` past the end returns the empty string); `none` models
the exception raised when the header has no parsable record count. -/
def gets_trace (incoming : List String) : Option (List Ev) :=
  let header := incoming.headD ""
  match (pySplitWS header.toList).get? 1 with
  | none => none
  | some tok =>
      match pyInt tok with
      | none => none
      | some n =>
          let rest := incoming.tail
          some (Ev.send "GETS All" :: Ev.recv header ::
            ((List.range n.toNat).map (fun i => Ev.recv (rest.getD i ""))
              ++ [Ev.send "OK", Ev.recv (rest.getD n.toNat "")]))

end Moto

/-! # client.py — scheduling engine -/

namespace Client

/-- `ServerInfo` of client.py.  `server_id` is kept as the raw token (the
source never converts it to an integer); `start_time` has already been
converted by `__init__` (with `'-'` mapped to `0`). -/
structure ServerInfo where
  server_type : String
  server_id : String
  state : String
  start_time : Int
  avail_cores : Int
  avail_mem : Int
  avail_disk : Int
  num_waiting_jobs : Int
  num_running_jobs : Int
deriving DecidableEq, Repr

/-- `Job` of client.py (`job_id` is kept as the raw token). -/
structure Job where
  job_id : String
  submit_time : Int
  est_run_time : Int
  cores : Int
  memory : Int
  disk : Int
deriving DecidableEq, Repr

/-- `ServerInfo.is_immediately_available` of client.py. -/
def is_immediately_available (s : ServerInfo) : Bool :=
  s.state = "idle" || (s.state = "active" && s.num_waiting_jobs = 0)

/-- `can_fit_job` of client.py. -/
def can_fit_job (s : ServerInfo) (j : Job) : Bool :=
  j.cores ≤ s.avail_cores && j.memory ≤ s.avail_mem && j.disk ≤ s.avail_disk

/-- `calculate_resource_waste` of client.py; `none` models the
`float('inf')` result returned when one of the normalising totals is zero. -/
def calculate_resource_waste (s : ServerInfo) (j : Job) : Option ℚ :=
  let wasteCores : Int := max 0 (s.avail_cores - j.cores)
  let wasteMem : Int := max 0 (s.avail_mem - j.memory)
  let wasteDisk : Int := max 0 (s.avail_disk - j.disk)
  let totalCores : Int := wasteCores + j.cores
  let totalMem : Int := wasteMem + j.memory
  let totalDisk : Int := wasteDisk + j.disk
  if totalCores = 0 ∨ totalMem = 0 ∨ totalDisk = 0 then none
  else some (((wasteCores : ℚ) / totalCores + (wasteMem : ℚ) / totalMem
      + (wasteDisk : ℚ) / totalDisk) / 3)

/-- The availability-state base bonus of `calculate_server_score`
(step 1 of the source).  `bootupTimes` models `bootup_times.get(type, 60)`
already applied (a total lookup-with-default). -/
def stateBonus (s : ServerInfo) (bootupTimes : String → ℚ) (currentTime : Int) : ℚ :=
  if is_immediately_available s then 2000
  else if s.state = "booting" then
    let bootupTime := bootupTimes s.server_type
    if 0 < s.start_time then
      let estimatedDelay : Int := max 0 (s.start_time - currentTime)
      if (estimatedDelay : ℚ) ≤ bootupTime ∧ 0 ≤ estimatedDelay then
        800 * (1 - min 1 ((estimatedDelay : ℚ) / bootupTime))
      else 200
    else 200
  else if s.state = "inactive" then 50
  else 0

/-- The utilization bonus of `calculate_server_score` (step 6 of the source). -/
def utilBonus (s : ServerInfo) (j : Job) : ℚ :=
  let totalAvail : Int := s.avail_cores + s.avail_mem + s.avail_disk
  let jobTotal : Int := j.cores + j.memory + j.disk
  if 0 < totalAvail then
    let utilization : ℚ := (jobTotal : ℚ) / (totalAvail : ℚ)
    if 3 / 10 < utilization then 100 * min 1 utilization else 0
  else 0

/-- `calculate_server_score` of client.py: sentinel `-1` when the job does not
fit, otherwise the sum of the base bonus, queue penalty, load penalty and the
best-fit terms (the latter only when the waste is finite). -/
def calculate_server_score (s : ServerInfo) (j : Job) (bootupTimes : String → ℚ)
    (currentTime : Int) : ℚ :=
  if can_fit_job s j then
    stateBonus s bootupTimes currentTime
      - (s.num_waiting_jobs : ℚ) * 15
      - (s.num_running_jobs : ℚ) * 8
      + (match calculate_resource_waste s j with
         | none => 0
         | some w => -(w * 100) + (1 / (1 + w * 20)) * 200 + utilBonus s j)
  else -1

/-- `select_best_server` of client.py: filter by `can_fit_job`, score, sort
descending by score (Python's stable sort) and return the top server. -/
def select_best_server (servers : List ServerInfo) (j : Job)
    (bootupTimes : String → ℚ) (currentTime : Int) : Option ServerInfo :=
  let valid := servers.filter (fun s => can_fit_job s j)
  if valid.isEmpty then none
  else
    let scored := valid.map (fun s => (calculate_server_score s j bootupTimes currentTime, s))
    (sortDescBy (fun p => p.1) scored).head?.map (fun p => p.2)

/-- `int(...)` where a failure is the uncaught `ValueError` of client.py's
`ServerInfo.__init__`. -/
def exceptInt (s : Str) : Except Unit Int :=
  match pyInt s with
  | some n => Except.ok n
  | none => Except.error ()

/-- `parse_server_info` of client.py: at least 9 whitespace fields are
required (else `None`); the numeric conversions happen inside
`ServerInfo.__init__` and raise on a non-numeric token (`Except.error`). -/
def parse_server_info (line : Str) : Except Unit (Option ServerInfo) :=
  let parts := pySplitWS (pyStrip line)
  if 9 ≤ parts.length then do
    let startTime ← (if parts.getD 3 [] = ['-'] then Except.ok 0 else exceptInt (parts.getD 3 []))
    let ac ← exceptInt (parts.getD 4 [])
    let am ← exceptInt (parts.getD 5 [])
    let ad ← exceptInt (parts.getD 6 [])
    let wj ← exceptInt (parts.getD 7 [])
    let rj ← exceptInt (parts.getD 8 [])
    Except.ok (some ⟨strOf (parts.getD 0 []), strOf (parts.getD 1 []),
      strOf (parts.getD 2 []), startTime, ac, am, ad, wj, rj⟩)
  else Except.ok none

/-- Indexing `parts[i]` followed by `int(...)`; an out-of-range index is the
uncaught `IndexError`. -/
def exceptIdxInt (parts : List Str) (i : Nat) : Except Unit Int :=
  match parts.get? i with
  | none => Except.error ()
  | some s => exceptInt s

/-- The inner `while '\n' in buffer` loop of `get_capable_servers`, phrased on
`splitNL buffer`: the last element of the split is the part of the buffer not
yet terminated by a newline.  Returns the leftover buffer, the server list and
the record count; stops early on a blank/sentinel line or once the count is
reached (Python `break`). -/
def innerLines : List Str → List ServerInfo → Int → Int →
    Except Unit (Str × List ServerInfo × Int)
  | [], servers, count, _ => Except.ok ([], servers, count)
  | [last], servers, count, _ => Except.ok (last, servers, count)
  | line :: rest, servers, count, nRecs => do
      let l := pyStrip line
      if l = [] ∨ l = ['.'] then Except.ok (joinNL rest, servers, count)
      else do
        let rec? ← parse_server_info l
        let next := match rec? with
          | some r => (servers ++ [r], count + 1)
          | none => (servers, count)
        if nRecs ≤ next.2 then Except.ok (joinNL rest, next.1, next.2)
        else innerLines rest next.1 next.2 nRecs

/-- The outer `while received_count < n_recs` loop of `get_capable_servers`:
each iteration consumes one chunk from the socket (an exhausted chunk list or
an empty chunk is `recv` returning no data, which breaks the loop). -/
def outerLoop : List Str → Str → List ServerInfo → Int → Int →
    Except Unit (List Str × Str × List ServerInfo × Int)
  | chunks, buffer, servers, count, nRecs =>
      if count < nRecs then
        match chunks with
        | [] => Except.ok ([], buffer, servers, count)
        | c :: rest =>
            if c = [] then Except.ok (rest, buffer, servers, count)
            else do
              let r ← innerLines (splitNL (buffer ++ c)) servers count nRecs
              outerLoop rest r.1 r.2.1 r.2.2 nRecs
      else Except.ok (chunks, buffer, servers, count)

/-- `get_capable_servers` of client.py over a fragmented byte stream: the
first `recv` is searched for the `DATA` header (any further lines of that
first chunk are then dropped, since the record loop starts from a fresh empty
buffer); then records are accumulated chunk by chunk.  The final
sentinel-drain loop of the source reads further chunks but never modifies the
server list, so it does not appear in the result.  `Except.error` models an
uncaught exception while parsing the header or a record. -/
def get_capable_servers (chunks : List Str) : Except Unit (List ServerInfo) :=
  let data := chunks.headD []
  let rest := chunks.tail
  let lines := splitNL data
  let dataLine? :=
    match lines.find? (fun l => startsWithC (pyStrip l) "DATA".toList) with
    | some l => some (pyStrip l)
    | none =>
        let dr := (splitNL (pyStrip data)).headD []
        if startsWithC dr "DATA".toList then some dr else none
  match dataLine? with
  | none => Except.ok []
  | some dataLine => do
      let parts := pySplitWS dataLine
      let nRecs ← exceptIdxInt parts 1
      let _recLen ← exceptIdxInt parts 2
      let r ← outerLoop rest [] [] 0 nRecs
      Except.ok r.2.2.1

end Client

/-! # ds-test/client.py and ds-test/aras_client.py — ARAS engine

The two ds-test variants share their record parser and directory handling
verbatim; `calculate_priority`, `find_best_server` and `backfill_candidate`
are embedded from ds-test/client.py (the lines cited by the claims). -/

namespace Aras

/-- `Job` of ds-test/client.py (all fields converted with `int` on parse). -/
structure Job where
  job_id : Int
  submit_time : Int
  est_run_time : Int
  cores : Int
  memory : Int
  disk : Int
deriving DecidableEq, Repr

/-- `ServerInfo` of ds-test/client.py. -/
structure ServerInfo where
  type_name : String
  server_id : Int
  state : String
  start_time : Int
  cores : Int
  memory : Int
  disk : Int
  num_waiting_jobs : Int
  num_running_jobs : Int
deriving DecidableEq, Repr

/-- The server directory `self.servers`: a Python dict keyed by
`(type_name, server_id)` in insertion order. -/
abbrev Dir := List ((String × Int) × ServerInfo)

/-- Dict assignment `self.servers[key] = server`: replace in place when the
key is present, append otherwise. -/
def upsertD : Dir → (String × Int) → ServerInfo → Dir
  | [], k, v => [(k, v)]
  | (k', v') :: rest, k, v =>
      if k' = k then (k, v) :: rest else (k', v') :: upsertD rest k v

/-- Dict lookup by key. -/
def lookupDir : (String × Int) → Dir → Option ServerInfo
  | _, [] => none
  | k, (k', v) :: rest => if k' = k then some v else lookupDir k rest

/-- `can_run_job` of ds-test/client.py (same test as `can_server_run_job` of
aras_client.py). -/
def can_run_job (s : ServerInfo) (j : Job) : Bool :=
  j.cores ≤ s.cores && j.memory ≤ s.memory && j.disk ≤ s.disk

/-- The per-axis utilization average shared by `calculate_priority` and
`backfill_candidate` (`job.x / server.x if server.x > 0 else 0`). -/
def avg_util (s : ServerInfo) (j : Job) : ℚ :=
  ((if 0 < s.cores then (j.cores : ℚ) / (s.cores : ℚ) else 0)
    + (if 0 < s.memory then (j.memory : ℚ) / (s.memory : ℚ) else 0)
    + (if 0 < s.disk then (j.disk : ℚ) / (s.disk : ℚ) else 0)) / 3

/-- The Best-Fit term of `calculate_priority` (step 4 of the source). -/
def fit_score (s : ServerInfo) (j : Job) : ℚ :=
  let remainingTotal : Int := (s.cores - j.cores) + (s.memory - j.memory) + (s.disk - j.disk)
  let totalCapacity : Int := s.cores + s.memory + s.disk
  let remainingRatio : ℚ :=
    if 0 < totalCapacity then (remainingTotal : ℚ) / (totalCapacity : ℚ) else 1
  avg_util s j * (7 / 10) + (1 - remainingRatio) * (3 / 10)

/-- The availability-state base score of `calculate_priority`; `none` models
the `else: return -1.0` branch taken for `unavailable` or unknown states. -/
def stateScore (s : ServerInfo) : Option ℚ :=
  if s.state = "active" ∨ s.state = "idle" then
    some (1000 + if s.state = "idle" then 50 else 0)
  else if s.state = "booting" then some 500
  else if s.state = "inactive" then some 50
  else none

/-- `calculate_priority` of ds-test/client.py (the `current_time` argument is
accepted but unused by the source). -/
def calculate_priority (s : ServerInfo) (j : Job) (_currentTime : Int) : ℚ :=
  if can_run_job s j then
    match stateScore s with
    | none => -1
    | some base =>
        base - (s.num_waiting_jobs : ℚ) * 20
          + (if s.num_running_jobs = 0 then 50
             else if s.num_running_jobs ≤ 2 then -((s.num_running_jobs : ℚ) * 5)
             else -((s.num_running_jobs : ℚ) * 15))
          + fit_score s j * 50
  else -1

/-- The candidate loop of `find_best_server`: `best_score` starts at `-1.0`
and a server is adopted only when its score is strictly greater. -/
def findBestLoop (j : Job) (currentTime : Int) :
    Dir → Option (String × Int) → ℚ → Option (String × Int)
  | [], best, _ => best
  | e :: rest, best, bestScore =>
      if e.2.state = "unavailable" then findBestLoop j currentTime rest best bestScore
      else
        let score := calculate_priority e.2 j currentTime
        if bestScore < score then findBestLoop j currentTime rest (some e.1) score
        else findBestLoop j currentTime rest best bestScore

/-- `find_best_server` of ds-test/client.py. -/
def find_best_server (dir : Dir) (j : Job) (currentTime : Int) : Option (String × Int) :=
  findBestLoop j currentTime dir none (-1)

/-- The backfill score of ds-test/client.py (`avg_util`, plus `10.0` when at
most 3 jobs are running). -/
def backfillScore (s : ServerInfo) (j : Job) : ℚ :=
  if s.num_running_jobs ≤ 3 then avg_util s j + 10 else avg_util s j

/-- `backfill_candidate` of ds-test/client.py: only jobs with estimated run
time at most 600; candidates are the active servers with at least one running
job and sufficient resources; the top scorer (stable descending sort) wins. -/
def backfill_candidate (dir : Dir) (j : Job) (_currentTime : Int) : Option (String × Int) :=
  if 600 < j.est_run_time then none
  else
    let candidates := dir.filterMap (fun e =>
      if e.2.state = "active" ∧ 0 < e.2.num_running_jobs ∧ can_run_job e.2 j then
        some (e.1, backfillScore e.2 j)
      else none)
    match sortDescBy (fun c => c.2) candidates with
    | [] => none
    | c :: _ => some c.1

/-- The decision step of `communicate` in ds-test/client.py: try
`backfill_candidate` first, fall back to `find_best_server`; both are called
with `current_time = job.submit_time`. -/
def schedule_decision (dir : Dir) (j : Job) : Option (String × Int) :=
  match backfill_candidate dir j j.submit_time with
  | some k => some k
  | none => find_best_server dir j j.submit_time

/-- One record line of a bulk block, after `line.split()`: skip an optional
leading `SENT` token, require at least 9 further fields, convert the numeric
ones (`try`/`except` makes any failure drop the record). -/
def parseRecordParts (parts : List Str) : Option ServerInfo :=
  let startIdx := if parts.headD [] = "SENT".toList then 1 else 0
  if startIdx + 9 ≤ parts.length then
    match pyInt (parts.getD (startIdx + 1) []), pyInt (parts.getD (startIdx + 3) []),
        pyInt (parts.getD (startIdx + 4) []), pyInt (parts.getD (startIdx + 5) []),
        pyInt (parts.getD (startIdx + 6) []), pyInt (parts.getD (startIdx + 7) []),
        pyInt (parts.getD (startIdx + 8) []) with
    | some sid, some st, some c, some m, some d, some w, some r =>
        some ⟨strOf (parts.getD startIdx []), sid, strOf (parts.getD (startIdx + 2) []),
          st, c, m, d, w, r⟩
    | _, _, _, _, _, _, _ => none
  else none

/-- A `DATA` header line (`line == "DATA" or line.startswith("DATA ")`). -/
def isDataLine (t : Str) : Bool :=
  t = "DATA".toList || startsWithC t "DATA ".toList

/-- The line loop of `parse_gets_response` (shared by ds-test/client.py and
aras_client.py): skip blanks, wait for the `DATA` marker, stop at the `"."`
sentinel, parse each record line and store it in the directory under
`(type_name, server_id)`. -/
def parseLines : Bool → Dir → List Str → List ServerInfo × Dir
  | _, dir, [] => ([], dir)
  | started, dir, l :: ls =>
      let t := pyStrip l
      if t = [] then parseLines started dir ls
      else if isDataLine t then parseLines true dir ls
      else if started = false then parseLines started dir ls
      else if t = ['.'] then ([], dir)
      else
        match parseRecordParts (pySplitWS t) with
        | some r =>
            let rest := parseLines started (upsertD dir (r.type_name, r.server_id) r) ls
            (r :: rest.1, rest.2)
        | none => parseLines started dir ls

/-- The records `parseLines` appends, independent of the directory it is
threading (used to state replace-semantics). -/
def extractRecs : Bool → List Str → List ServerInfo
  | _, [] => []
  | started, l :: ls =>
      let t := pyStrip l
      if t = [] then extractRecs started ls
      else if isDataLine t then extractRecs true ls
      else if started = false then extractRecs started ls
      else if t = ['.'] then []
      else
        match parseRecordParts (pySplitWS t) with
        | some r => r :: extractRecs started ls
        | none => extractRecs started ls

/-- Storing a record list into the directory in order (the directory effect of
`parseLines`). -/
def feedD (dir : Dir) : List ServerInfo → Dir
  | [] => dir
  | r :: rs => feedD (upsertD dir (r.type_name, r.server_id) r) rs

/-- The last record of a list with a given key (the value a refresh leaves in
the directory for that key). -/
def findLastRec (k : String × Int) : List ServerInfo → Option ServerInfo
  | [] => none
  | r :: rs =>
      match findLastRec k rs with
      | some v => some v
      | none => if (r.type_name, r.server_id) = k then some r else none

/-- `parse_gets_response` (ds-test/client.py and aras_client.py): strip the
response, split it into lines and run the line loop; returns the parsed
records and the updated directory `self.servers`. -/
def parse_gets_response (dir : Dir) (response : Str) : List ServerInfo × Dir :=
  parseLines false dir (splitNL (pyStrip response))

/-- The per-line `recv` events of `read_until_dot` in `communicate`
(ds-test/client.py): every line is consumed, up to and including the sentinel. -/
def recvUntilDotEvs : List String → List Ev
  | [] => []
  | l :: ls => Ev.recv l :: (if pyStripS l = "." then [] else recvUntilDotEvs ls)

/-- The events of one `GETS All` exchange in `communicate` of
ds-test/client.py: send the query, read the header line, send `OK` as soon as
the header is recognised, then read the record lines up to the sentinel. -/
def gets_trace (incoming : List String) : List Ev :=
  Ev.send "GETS All" ::
    match incoming with
    | [] => []
    | h :: rest =>
        Ev.recv h ::
          ((if startsWithC h.toList "DATA".toList then [Ev.send "OK"] else [])
            ++ recvUntilDotEvs rest)

end Aras

/-! # ds-test/client.py — byte-at-a-time transport (`read_line` / `read_until_dot`)

`read_line` calls `sock.recv(1)` in a loop; the model keeps the fragmented
stream as the pair (remainder of the chunk currently being drained, list of
chunks not yet touched). -/

namespace ArasSock

/-- One `read_line`: consume characters one at a time (crossing chunk
boundaries transparently, exactly as `recv(1)` does) until a newline; `none`
models the connection closing before a newline (the source returns `None`,
dropping the partial line). -/
def read_lineAux (cs : Str) (chunks : List Str) : Option (Str × Str × List Str) :=
  match cs, chunks with
  | [], [] => none
  | [], c :: rest => read_lineAux c rest
  | ch :: cs', rest =>
      if ch = '\n' then some ([], cs', rest)
      else
        match read_lineAux cs' rest with
        | none => none
        | some (l, r1, r2) => some (ch :: l, r1, r2)
termination_by (chunks.length, cs.length)

/-- `read_line` on an unfragmented stream. -/
def read_lineFlat (s : Str) : Option (Str × Str) :=
  match s with
  | [] => none
  | ch :: cs =>
      if ch = '\n' then some ([], cs)
      else
        match read_lineFlat cs with
        | none => none
        | some (l, r) => some (ch :: l, r)

theorem read_lineAux_flat : ∀ (cs : Str) (chunks : List Str),
    (read_lineAux cs chunks).map (fun p => (p.1, p.2.1 ++ flatChunks p.2.2)) =
      read_lineFlat (cs ++ flatChunks chunks) := by
  intro cs chunks
  induction cs, chunks using read_lineAux.induct with
  | case1 =>
      simp [read_lineAux, read_lineFlat, flatChunks]
  | case2 c rest ih =>
      simpa [read_lineAux, flatChunks] using ih
  | case3 cs' rest =>
      simp [read_lineAux, read_lineFlat]
  | case4 ch cs' rest hnl hnone ih =>
      simp only [read_lineAux, if_neg hnl, hnone, Option.map_none', List.cons_append,
        read_lineFlat]
      rw [hnone] at ih
      simp only [Option.map_none'] at ih
      simp only [List.append_eq]
      rw [← ih]
  | case5 ch cs' rest hnl l r1 r2 hsome ih =>
      simp only [read_lineAux, if_neg hnl, hsome, List.cons_append, read_lineFlat]
      rw [hsome] at ih
      simp only [Option.map_some'] at ih
      simp only [List.append_eq]
      rw [← ih]
      simp

theorem read_lineFlat_length : ∀ {s l r : Str},
    read_lineFlat s = some (l, r) → r.length < s.length := by
  intro s
  induction s with
  | nil => intro l r h; simp [read_lineFlat] at h
  | cons ch cs ih =>
      intro l r h
      by_cases hnl : ch = '\n'
      · simp only [read_lineFlat, if_pos hnl] at h
        obtain ⟨-, rfl⟩ := Prod.mk.injEq .. ▸ (Option.some.injEq .. ▸ h)
        simp
      · simp only [read_lineFlat, if_neg hnl] at h
        cases hr : read_lineFlat cs with
        | none => rw [hr] at h; exact absurd h (by simp)
        | some p =>
            rw [hr] at h
            obtain ⟨p1, p2⟩ := p
            simp only [Option.some.injEq, Prod.mk.injEq] at h
            obtain ⟨-, rfl⟩ := h
            exact Nat.lt_succ_of_lt (ih hr)

theorem read_lineAux_length {cs : Str} {chunks : List Str} {l cs' : Str}
    {rest : List Str} (h : read_lineAux cs chunks = some (l, cs', rest)) :
    cs'.length + (flatChunks rest).length < cs.length + (flatChunks chunks).length := by
  have hb := read_lineAux_flat cs chunks
  rw [h] at hb
  simp only [Option.map_some'] at hb
  have := read_lineFlat_length hb.symm
  simpa [List.length_append] using this

/-- The line loop of `read_until_dot` on a fragmented stream: collect lines
until the connection closes or the stripped line `"."` arrives. -/
def readLinesUntilDot (cs : Str) (chunks : List Str) : List Str :=
  match hr : read_lineAux cs chunks with
  | none => []
  | some (l, cs', rest) =>
      if pyStrip l = ['.'] then [] else l :: readLinesUntilDot cs' rest
termination_by cs.length + (flatChunks chunks).length
decreasing_by exact read_lineAux_length hr

/-- `read_until_dot` of ds-test/client.py over a fragmented stream: joins the
collected lines with newlines. -/
def read_until_dot (chunks : List Str) : Str :=
  joinNL (readLinesUntilDot [] chunks)

/-- The line loop of `read_until_dot` on an unfragmented stream. -/
def readLinesUntilDotFlat (s : Str) : List Str :=
  match hr : read_lineFlat s with
  | none => []
  | some (l, r) =>
      if pyStrip l = ['.'] then [] else l :: readLinesUntilDotFlat r
termination_by s.length
decreasing_by exact read_lineFlat_length hr

end ArasSock

/-! # Helper lemmas -/

theorem mem_insertDescBy {key : α → ℚ} {x z : α} {l : List α}
    (h : z ∈ insertDescBy key x l) : z = x ∨ z ∈ l := by
  induction l with
  | nil => simpa [insertDescBy] using h
  | cons y ys ih =>
      by_cases hc : key x < key y
      · simp only [insertDescBy, if_pos hc, List.mem_cons] at h
        rcases h with h | h
        · exact Or.inr (by simp [h])
        · rcases ih h with h' | h'
          · exact Or.inl h'
          · exact Or.inr (List.mem_cons_of_mem _ h')
      · simp only [insertDescBy, if_neg hc, List.mem_cons] at h
        rcases h with h | h | h
        · exact Or.inl h
        · exact Or.inr (by simp [h])
        · exact Or.inr (List.mem_cons_of_mem _ h)

theorem mem_sortDescBy {key : α → ℚ} {z : α} {l : List α}
    (h : z ∈ sortDescBy key l) : z ∈ l := by
  induction l with
  | nil => simp [sortDescBy] at h
  | cons x xs ih =>
      rcases mem_insertDescBy (l := sortDescBy key xs) h with h' | h'
      · simp [h']
      · exact List.mem_cons_of_mem _ (ih h')

theorem insertDescBy_ne_nil (key : α → ℚ) (x : α) (l : List α) :
    insertDescBy key x l ≠ [] := by
  cases l with
  | nil => simp [insertDescBy]
  | cons y ys =>
      by_cases hc : key x < key y <;> simp [insertDescBy, hc]

theorem sortDescBy_eq_nil_iff (key : α → ℚ) (l : List α) :
    sortDescBy key l = [] ↔ l = [] := by
  cases l with
  | nil => simp [sortDescBy]
  | cons x xs => simp [sortDescBy, insertDescBy_ne_nil]

namespace Moto

theorem motoLoop_all_unhosted (c m d : Int) (servers : List ServerInfo)
    (h : ∀ s ∈ servers, can_host s c m d = false) :
    ∀ best bestScore, motoLoop c m d servers best bestScore = best := by
  induction servers with
  | nil => intro best bestScore; rfl
  | cons s rest ih =>
      intro best bestScore
      have hs : can_host s c m d = false := h s (List.mem_cons_self _ _)
      have hrest : ∀ s ∈ rest, can_host s c m d = false :=
        fun t ht => h t (List.mem_cons_of_mem _ ht)
      simp only [motoLoop, hs, Bool.false_eq_true, if_false]
      exact ih hrest best bestScore

end Moto

namespace Client

theorem select_best_server_mem {servers : List ServerInfo} {j : Job}
    {bootupTimes : String → ℚ} {currentTime : Int} {s : ServerInfo}
    (h : select_best_server servers j bootupTimes currentTime = some s) :
    s ∈ servers ∧ can_fit_job s j := by
  unfold select_best_server at h
  by_cases hv : (servers.filter (fun s => can_fit_job s j)).isEmpty
  · rw [if_pos hv] at h
    exact absurd h (by simp)
  · rw [if_neg hv, Option.map_eq_some'] at h
    obtain ⟨p, hp, hps⟩ := h
    have hmem : p ∈ sortDescBy (fun p => p.1)
        ((servers.filter (fun s => can_fit_job s j)).map
          (fun s => (calculate_server_score s j bootupTimes currentTime, s))) :=
      List.mem_of_mem_head? hp
    have hmem2 := mem_sortDescBy hmem
    obtain ⟨t, ht, hts⟩ := List.mem_map.mp hmem2
    have hfil := List.mem_filter.mp ht
    have h2 : t = s := by
      have := congrArg Prod.snd hts
      simpa [hps] using this
    exact ⟨h2 ▸ hfil.1, h2 ▸ hfil.2⟩

theorem select_best_server_none_iff (servers : List ServerInfo) (j : Job)
    (bootupTimes : String → ℚ) (currentTime : Int) :
    select_best_server servers j bootupTimes currentTime = none ↔
      ∀ s ∈ servers, ¬ can_fit_job s j := by
  unfold select_best_server
  by_cases hv : (servers.filter (fun s => can_fit_job s j)).isEmpty
  · rw [if_pos hv]
    simp only [true_iff]
    intro s hs hfit
    rw [List.isEmpty_iff, List.filter_eq_nil_iff] at hv
    exact hv s hs hfit
  · rw [if_neg hv]
    constructor
    · intro h
      rw [Option.map_eq_none', List.head?_eq_none_iff, sortDescBy_eq_nil_iff,
        List.map_eq_nil_iff] at h
      rw [← List.isEmpty_iff] at h
      exact absurd h hv
    · intro h
      exfalso
      apply hv
      rw [List.isEmpty_iff, List.filter_eq_nil_iff]
      intro s hs
      simpa using h s hs

end Client

/-! # Claim C1 — eligibility of the returned decision -/

/-- C1 (counterexample): the claim "the scheduling engine never returns a
server that fails the eligibility filter … when no server passes the filter
the engine returns the 'none' sentinel" is false for `moto_choose_server`
(client_moto.py): (a) a server whose state is `unavailable` but whose
resources suffice is returned, because `can_host` never inspects the state;
(b) when no server can host the job and the list is non-empty, the first
server is returned instead of the `none` sentinel. -/
theorem c1_counterexample :
    (Moto.moto_choose_server (1, 2, 4, 8, 100)
        [⟨"gpu", 3, "unavailable", 4, 8, 16, 0, 0⟩] = some ("gpu", 3)
      ∧ (⟨"gpu", 3, "unavailable", 4, 8, 16, 0, 0⟩ : Moto.ServerInfo).state = "unavailable")
  ∧ (Moto.moto_choose_server (1, 2, 4, 8, 100)
        [⟨"tiny", 7, "idle", 1, 1, 1, 0, 0⟩] = some ("tiny", 7)
      ∧ Moto.can_host ⟨"tiny", 7, "idle", 1, 1, 1, 0, 0⟩ 2 4 8 = false) := by
  decide

/-- C1 (amended): only the resource part of the eligibility filter is
enforced.  `select_best_server` (client.py) never returns a server whose
available cores/memory/disk do not cover the job, and returns `none` exactly
when no server fits resource-wise — but the state is not part of its filter.
`moto_choose_server` (client_moto.py) degrades further: when no server can
host the job it returns the first server of the list (so `none` only for an
empty list). -/
theorem c1_amended :
    (∀ (servers : List Client.ServerInfo) (j : Client.Job) (bt : String → ℚ)
        (ct : Int) (s : Client.ServerInfo),
        Client.select_best_server servers j bt ct = some s →
          s ∈ servers ∧ Client.can_fit_job s j)
  ∧ (∀ (servers : List Client.ServerInfo) (j : Client.Job) (bt : String → ℚ) (ct : Int),
        Client.select_best_server servers j bt ct = none ↔
          ∀ s ∈ servers, ¬ Client.can_fit_job s j)
  ∧ (∀ (req : Int × Int × Int × Int × Int) (servers : List Moto.ServerInfo),
        (∀ s ∈ servers, Moto.can_host s req.2.1 req.2.2.1 req.2.2.2.1 = false) →
          Moto.moto_choose_server req servers =
            servers.head?.map (fun s => (s.type, s.id))) := by
  refine ⟨fun servers j bt ct s h => Client.select_best_server_mem h,
    fun servers j bt ct => Client.select_best_server_none_iff servers j bt ct,
    fun req servers h => ?_⟩
  unfold Moto.moto_choose_server
  rw [Moto.motoLoop_all_unhosted _ _ _ servers h none none]

/-- C1 (witness): the amended statement applied at concrete inputs: a job
that fits no server makes `select_best_server` return `none`, and makes
`moto_choose_server` fall back to the first server. -/
theorem c1_witness :
    Client.select_best_server
        [⟨"t1", "0", "idle", 0, 1, 1, 1, 0, 0⟩] ⟨"9", 0, 100, 2, 4, 8⟩
        (fun _ => 60) 0 = none
  ∧ Moto.moto_choose_server (9, 2, 4, 8, 100)
      [⟨"m1", 5, "idle", 1, 1, 1, 0, 0⟩] = some ("m1", 5) := by
  constructor
  · exact (c1_amended.2.1 _ _ _ _).mpr (by decide)
  · rw [c1_amended.2.2 (9, 2, 4, 8, 100) _ (by decide)]
    rfl

/-! # Bounds for the client.py scoring terms -/

namespace Client

theorem waste_bounds {s : ServerInfo} {j : Job} {w : ℚ}
    (hc : 0 ≤ j.cores) (hm : 0 ≤ j.memory) (hd : 0 ≤ j.disk)
    (h : calculate_resource_waste s j = some w) : 0 ≤ w ∧ w ≤ 1 := by
  simp only [calculate_resource_waste] at h
  by_cases hg : max 0 (s.avail_cores - j.cores) + j.cores = 0
      ∨ max 0 (s.avail_mem - j.memory) + j.memory = 0
      ∨ max 0 (s.avail_disk - j.disk) + j.disk = 0
  · rw [if_pos hg] at h
    exact absurd h (by simp)
  · rw [if_neg hg] at h
    push_neg at hg
    obtain ⟨hg1, hg2, hg3⟩ := hg
    have hw : w = (((max 0 (s.avail_cores - j.cores) : Int) : ℚ)
          / ((max 0 (s.avail_cores - j.cores) + j.cores : Int) : ℚ)
        + ((max 0 (s.avail_mem - j.memory) : Int) : ℚ)
          / ((max 0 (s.avail_mem - j.memory) + j.memory : Int) : ℚ)
        + ((max 0 (s.avail_disk - j.disk) : Int) : ℚ)
          / ((max 0 (s.avail_disk - j.disk) + j.disk : Int) : ℚ)) / 3 :=
      (Option.some.inj h).symm
    have hb : ∀ (a b : Int), 0 ≤ a → 0 ≤ b → a + b ≠ 0 →
        0 ≤ ((a : ℚ) / ((a + b : Int) : ℚ)) ∧ ((a : ℚ) / ((a + b : Int) : ℚ)) ≤ 1 := by
      intro a b ha hb hab
      have hpos : (0 : Int) < a + b := lt_of_le_of_ne (by linarith) (Ne.symm hab)
      have hposq : (0 : ℚ) < ((a + b : Int) : ℚ) := by exact_mod_cast hpos
      constructor
      · apply div_nonneg _ (le_of_lt hposq)
        exact_mod_cast ha
      · rw [div_le_one hposq]
        exact_mod_cast by linarith
    have h1 := hb _ _ (le_max_left 0 (s.avail_cores - j.cores)) hc hg1
    have h2 := hb _ _ (le_max_left 0 (s.avail_mem - j.memory)) hm hg2
    have h3 := hb _ _ (le_max_left 0 (s.avail_disk - j.disk)) hd hg3
    constructor
    · rw [hw]; linarith [h1.1, h2.1, h3.1]
    · rw [hw]; linarith [h1.2, h2.2, h3.2]

theorem utilBonus_nonneg (s : ServerInfo) (j : Job) : 0 ≤ utilBonus s j := by
  unfold utilBonus
  by_cases h1 : (0 : Int) < s.avail_cores + s.avail_mem + s.avail_disk
  · rw [if_pos h1]
    by_cases h2 : (3 : ℚ) / 10 <
        ((j.cores + j.memory + j.disk : Int) : ℚ)
          / ((s.avail_cores + s.avail_mem + s.avail_disk : Int) : ℚ)
    · rw [if_pos h2]
      have : (0 : ℚ) < min 1 (((j.cores + j.memory + j.disk : Int) : ℚ)
          / ((s.avail_cores + s.avail_mem + s.avail_disk : Int) : ℚ)) := by
        apply lt_min
        · norm_num
        · linarith
      linarith
    · rw [if_neg h2]
  · rw [if_neg h1]

end Client

/-! # Nonnegativity of the ds-test fit score -/

namespace Aras

theorem avg_util_nonneg {s : ServerInfo} {j : Job}
    (hc : 0 ≤ j.cores) (hm : 0 ≤ j.memory) (hd : 0 ≤ j.disk) :
    0 ≤ avg_util s j := by
  unfold avg_util
  have hterm : ∀ (a b : Int), 0 ≤ a →
      0 ≤ (if 0 < b then (a : ℚ) / (b : ℚ) else 0) := by
    intro a b ha
    by_cases hbp : (0 : Int) < b
    · rw [if_pos hbp]
      apply div_nonneg
      · exact_mod_cast ha
      · exact_mod_cast le_of_lt hbp
    · rw [if_neg hbp]
  have h1 := hterm j.cores s.cores hc
  have h2 := hterm j.memory s.memory hm
  have h3 := hterm j.disk s.disk hd
  linarith

theorem fit_score_nonneg {s : ServerInfo} {j : Job}
    (hc : 0 ≤ j.cores) (hm : 0 ≤ j.memory) (hd : 0 ≤ j.disk) :
    0 ≤ fit_score s j := by
  unfold fit_score
  have hu := avg_util_nonneg (s := s) hc hm hd
  have hr : (if 0 < s.cores + s.memory + s.disk then
        (((s.cores - j.cores) + (s.memory - j.memory) + (s.disk - j.disk) : Int) : ℚ)
          / ((s.cores + s.memory + s.disk : Int) : ℚ)
      else 1) ≤ 1 := by
    by_cases hb : (0 : Int) < s.cores + s.memory + s.disk
    · rw [if_pos hb]
      have hbq : (0 : ℚ) < ((s.cores + s.memory + s.disk : Int) : ℚ) := by exact_mod_cast hb
      rw [div_le_one hbq]
      exact_mod_cast by linarith
    · rw [if_neg hb]
  nlinarith [hu, hr]

end Aras

/-! # Claim C4 — sentinel score ordering -/

/-- C4 (counterexample): the ineligible sentinel is the constant `-1`, which
is not strictly below every attainable passing score: against job
`(cores,mem,disk) = (1,1,1)`, the server `("t1",0)` with no available
resources is ineligible and scores `-1`, while the eligible inactive server
`("t1",1)` with 30 waiting jobs scores `-100 < -1`. -/
theorem c4_counterexample :
    Client.calculate_server_score ⟨"t1", "0", "idle", 0, 0, 0, 0, 0, 0⟩
        ⟨"1", 0, 100, 1, 1, 1⟩ (fun _ => 60) 0 = -1
  ∧ Client.calculate_server_score ⟨"t1", "1", "inactive", 0, 1, 1, 1, 30, 0⟩
        ⟨"1", 0, 100, 1, 1, 1⟩ (fun _ => 60) 0 = -100
  ∧ Client.can_fit_job ⟨"t1", "1", "inactive", 0, 1, 1, 1, 30, 0⟩ ⟨"1", 0, 100, 1, 1, 1⟩ = true
  ∧ (⟨"t1", "1", "inactive", 0, 1, 1, 1, 30, 0⟩ : Client.ServerInfo).state ≠ "unavailable"
  ∧ Client.can_fit_job ⟨"t1", "0", "idle", 0, 0, 0, 0, 0, 0⟩ ⟨"1", 0, 100, 1, 1, 1⟩ = false
  ∧ (-100 : ℚ) < -1 := by
  refine ⟨?_, ?_, by decide, by decide, by decide, by norm_num⟩
  · norm_num [Client.calculate_server_score, Client.can_fit_job]
  · norm_num [Client.calculate_server_score, Client.can_fit_job, Client.stateBonus,
      Client.is_immediately_available, Client.calculate_resource_waste, Client.utilBonus,
      show ("inactive" : String) ≠ "idle" by decide,
      show ("inactive" : String) ≠ "booting" by decide]

/-- C4 (amended): every server failing the resource filter is assigned the
constant sentinel `-1` (client.py `calculate_server_score` and ds-test
`calculate_priority` alike), and the sentinel is strictly below the score of
every eligible server that is idle with empty queues — but it is not below
every attainable passing score (see the counterexample: enough waiting jobs
drive an eligible score below `-1`). -/
theorem c4_amended :
    (∀ (s : Client.ServerInfo) (j : Client.Job) (bt : String → ℚ) (ct : Int),
        ¬ Client.can_fit_job s j → Client.calculate_server_score s j bt ct = -1)
  ∧ (∀ (s : Client.ServerInfo) (j : Client.Job) (bt : String → ℚ) (ct : Int),
        Client.can_fit_job s j → s.state = "idle" →
        s.num_waiting_jobs = 0 → s.num_running_jobs = 0 →
        0 ≤ j.cores → 0 ≤ j.memory → 0 ≤ j.disk →
        -1 < Client.calculate_server_score s j bt ct)
  ∧ (∀ (s : Aras.ServerInfo) (j : Aras.Job) (ct : Int),
        ¬ Aras.can_run_job s j → Aras.calculate_priority s j ct = -1)
  ∧ (∀ (s : Aras.ServerInfo) (j : Aras.Job) (ct : Int),
        Aras.can_run_job s j → s.state = "idle" →
        s.num_waiting_jobs = 0 → s.num_running_jobs = 0 →
        0 ≤ j.cores → 0 ≤ j.memory → 0 ≤ j.disk →
        -1 < Aras.calculate_priority s j ct) := by
  refine ⟨?_, ?_, ?_, ?_⟩
  · intro s j bt ct hfit
    simp only [Client.calculate_server_score]
    rw [if_neg hfit]
  · intro s j bt ct hfit hidle hwait hrun hc hm hd
    simp only [Client.calculate_server_score]
    rw [if_pos hfit]
    have hsb : Client.stateBonus s bt ct = 2000 := by
      unfold Client.stateBonus
      rw [if_pos (by simp [Client.is_immediately_available, hidle])]
    rw [hsb, hwait, hrun]
    have hub := Client.utilBonus_nonneg s j
    cases hw : Client.calculate_resource_waste s j with
    | none => norm_num
    | some w =>
        obtain ⟨hw0, hw1⟩ := Client.waste_bounds hc hm hd hw
        have hden : (0 : ℚ) < 1 + w * 20 := by linarith
        have hfrac : (0 : ℚ) < 1 / (1 + w * 20) := by positivity
        push_cast
        nlinarith
  · intro s j ct hrun
    simp only [Aras.calculate_priority]
    rw [if_neg hrun]
  · intro s j ct hfit hidle hwait hrun hc hm hd
    simp only [Aras.calculate_priority]
    rw [if_pos hfit]
    have hss : Aras.stateScore s = some 1050 := by
      unfold Aras.stateScore
      rw [if_pos (Or.inr hidle)]
      rw [if_pos hidle]
      norm_num
    rw [hss, hwait, hrun]
    have hfs := Aras.fit_score_nonneg (s := s) hc hm hd
    push_cast
    nlinarith

/-- C4 (witness): the amended statement at concrete inputs: an ineligible
server scores exactly `-1` and a small idle eligible server scores above `-1`
in both scoring functions. -/
theorem c4_witness :
    Client.calculate_server_score ⟨"t1", "0", "idle", 0, 0, 0, 0, 0, 0⟩
        ⟨"1", 0, 100, 1, 1, 1⟩ (fun _ => 60) 0 = -1
  ∧ (-1 : ℚ) < Client.calculate_server_score ⟨"t1", "1", "idle", 0, 2, 2, 2, 0, 0⟩
        ⟨"1", 0, 100, 1, 1, 1⟩ (fun _ => 60) 0
  ∧ Aras.calculate_priority ⟨"t1", 0, "idle", 0, 0, 0, 0, 0, 0⟩ ⟨1, 0, 100, 1, 1, 1⟩ 0 = -1
  ∧ (-1 : ℚ) < Aras.calculate_priority ⟨"t1", 1, "idle", 0, 2, 2, 2, 0, 0⟩ ⟨1, 0, 100, 1, 1, 1⟩ 0 := by
  refine ⟨c4_amended.1 _ _ _ _ (by decide),
    c4_amended.2.1 _ _ _ _ (by decide) rfl rfl rfl (by norm_num) (by norm_num) (by norm_num),
    c4_amended.2.2.1 _ _ _ (by decide),
    c4_amended.2.2.2 _ _ _ (by decide) rfl rfl rfl (by norm_num) (by norm_num) (by norm_num)⟩

/-! # Claim C5 — best-fit ordering -/

namespace Client

theorem stateBonus_congr {s1 s2 : ServerInfo} (bt : String → ℚ) (ct : Int)
    (htype : s1.server_type = s2.server_type) (hstate : s1.state = s2.state)
    (hstart : s1.start_time = s2.start_time)
    (hwait : s1.num_waiting_jobs = s2.num_waiting_jobs) :
    stateBonus s1 bt ct = stateBonus s2 bt ct := by
  unfold stateBonus is_immediately_available
  rw [htype, hstate, hstart, hwait]

end Client

/-- C5 (counterexample): the claim "identical state/queue/load fields and
strictly smaller normalized waste implies a strictly higher score" is false
for `calculate_server_score`: against job `(1,1,1)`, the idle server
`("t1",1)` with availability `(1,1,10)` has waste `3/10` and the idle server
`("t1",2)` with availability `(2,2,2)` has waste `1/2`, yet the second scores
higher (`2000 + 200/11` versus `1970 + 200/7`), because only the second
crosses the `0.3` utilization-bonus threshold. -/
theorem c5_counterexample :
    Client.calculate_resource_waste ⟨"t1", "1", "idle", 0, 1, 1, 10, 0, 0⟩
        ⟨"1", 0, 100, 1, 1, 1⟩ = some (3 / 10)
  ∧ Client.calculate_resource_waste ⟨"t1", "2", "idle", 0, 2, 2, 2, 0, 0⟩
        ⟨"1", 0, 100, 1, 1, 1⟩ = some (1 / 2)
  ∧ (3 / 10 : ℚ) < 1 / 2
  ∧ Client.can_fit_job ⟨"t1", "1", "idle", 0, 1, 1, 10, 0, 0⟩ ⟨"1", 0, 100, 1, 1, 1⟩ = true
  ∧ Client.can_fit_job ⟨"t1", "2", "idle", 0, 2, 2, 2, 0, 0⟩ ⟨"1", 0, 100, 1, 1, 1⟩ = true
  ∧ Client.calculate_server_score ⟨"t1", "1", "idle", 0, 1, 1, 10, 0, 0⟩
        ⟨"1", 0, 100, 1, 1, 1⟩ (fun _ => 60) 0
      < Client.calculate_server_score ⟨"t1", "2", "idle", 0, 2, 2, 2, 0, 0⟩
        ⟨"1", 0, 100, 1, 1, 1⟩ (fun _ => 60) 0 := by
  refine ⟨?_, ?_, by norm_num, by decide, by decide, ?_⟩
  · norm_num [Client.calculate_resource_waste]
  · norm_num [Client.calculate_resource_waste]
  · norm_num [Client.calculate_server_score, Client.can_fit_job, Client.stateBonus,
      Client.is_immediately_available, Client.calculate_resource_waste, Client.utilBonus]

/-- C5 (amended): for two eligible servers that agree on type, state, start
time, waiting count and running count *and on the utilization-bonus term*,
strictly smaller (finite) normalized waste does give a strictly higher score:
the waste penalty plus fit bonus `-100·w + 200/(1+20·w)` is strictly
decreasing in `w`.  The agreement on the utilization bonus is necessary — the
counterexample shows the `0.3`-threshold bonus can reverse the order. -/
theorem c5_amended (s1 s2 : Client.ServerInfo) (j : Client.Job) (bt : String → ℚ)
    (ct : Int) {w1 w2 : ℚ}
    (htype : s1.server_type = s2.server_type) (hstate : s1.state = s2.state)
    (hstart : s1.start_time = s2.start_time)
    (hwait : s1.num_waiting_jobs = s2.num_waiting_jobs)
    (hrun : s1.num_running_jobs = s2.num_running_jobs)
    (hf1 : Client.can_fit_job s1 j) (hf2 : Client.can_fit_job s2 j)
    (hc : 0 ≤ j.cores) (hm : 0 ≤ j.memory) (hd : 0 ≤ j.disk)
    (hw1 : Client.calculate_resource_waste s1 j = some w1)
    (hw2 : Client.calculate_resource_waste s2 j = some w2)
    (hlt : w1 < w2)
    (hub : Client.utilBonus s1 j = Client.utilBonus s2 j) :
    Client.calculate_server_score s2 j bt ct < Client.calculate_server_score s1 j bt ct := by
  have hsb := @Client.stateBonus_congr s1 s2 bt ct htype hstate hstart hwait
  simp only [Client.calculate_server_score]
  rw [if_pos hf1, if_pos hf2, hw1, hw2, hsb, hwait, hrun, hub]
  obtain ⟨hw10, -⟩ := Client.waste_bounds hc hm hd hw1
  have hd1 : (0 : ℚ) < 1 + w1 * 20 := by linarith
  have hd2 : (0 : ℚ) < 1 + w2 * 20 := by linarith
  have hmono : 1 / (1 + w2 * 20) ≤ 1 / (1 + w1 * 20) :=
    one_div_le_one_div_of_le hd1 (by linarith)
  nlinarith

/-- C5 (witness): the amended statement at concrete inputs: two idle servers
with equal utilization bonus (both below the threshold), wastes `3/4 < 4/5`,
and the lower-waste one scores strictly higher. -/
theorem c5_witness :
    Client.calculate_server_score ⟨"t1", "2", "idle", 0, 5, 5, 5, 0, 0⟩
        ⟨"1", 0, 100, 1, 1, 1⟩ (fun _ => 60) 0
      < Client.calculate_server_score ⟨"t1", "1", "idle", 0, 4, 4, 4, 0, 0⟩
        ⟨"1", 0, 100, 1, 1, 1⟩ (fun _ => 60) 0 :=
  @c5_amended ⟨"t1", "1", "idle", 0, 4, 4, 4, 0, 0⟩ ⟨"t1", "2", "idle", 0, 5, 5, 5, 0, 0⟩
    ⟨"1", 0, 100, 1, 1, 1⟩ (fun _ => 60) 0 (3 / 4) (4 / 5)
    rfl rfl rfl rfl rfl (by decide) (by decide)
    (by norm_num) (by norm_num) (by norm_num)
    (by norm_num [Client.calculate_resource_waste])
    (by norm_num [Client.calculate_resource_waste])
    (by norm_num)
    (by norm_num [Client.utilBonus])

/-! # Claim C10 — find_best_server can return none despite eligible servers -/

namespace Aras

theorem findBestLoop_stays_none (j : Job) (ct : Int) (dir : Dir)
    (h : ∀ e ∈ dir, e.2.state ≠ "unavailable" → calculate_priority e.2 j ct ≤ -1) :
    findBestLoop j ct dir none (-1) = none := by
  induction dir with
  | nil => rfl
  | cons e rest ih =>
      have hrest : ∀ e ∈ rest, e.2.state ≠ "unavailable" →
          calculate_priority e.2 j ct ≤ -1 :=
        fun t ht => h t (List.mem_cons_of_mem _ ht)
      by_cases hu : e.2.state = "unavailable"
      · simp only [findBestLoop, if_pos hu]
        exact ih hrest
      · have hs : calculate_priority e.2 j ct ≤ -1 := h e (List.mem_cons_self _ _) hu
        simp only [findBestLoop, if_neg hu]
        rw [if_neg (by linarith)]
        exact ih hrest

end Aras

/-- C10: `find_best_server` (ds-test) returns `None` whenever every
non-unavailable server in the directory has a priority score at most the
initial best score `-1.0`, because a candidate is adopted only on a strictly
greater score; such scores are attainable by eligible servers (see the
witness: an eligible inactive server with 20 waiting jobs scores `-250`). -/
theorem c10_find_best_none (dir : Aras.Dir) (j : Aras.Job) (ct : Int)
    (h : ∀ e ∈ dir, e.2.state ≠ "unavailable" →
      Aras.calculate_priority e.2 j ct ≤ -1) :
    Aras.find_best_server dir j ct = none :=
  Aras.findBestLoop_stays_none j ct dir h

/-- C10 (witness): a directory holding a single eligible inactive server with
20 waiting jobs (priority `-250 ≤ -1`) makes `find_best_server` return
`None`. -/
theorem c10_witness :
    Aras.find_best_server [(("t1", 0), ⟨"t1", 0, "inactive", 0, 1, 1, 1, 20, 0⟩)]
        ⟨1, 0, 100, 1, 1, 1⟩ 0 = none
  ∧ Aras.calculate_priority ⟨"t1", 0, "inactive", 0, 1, 1, 1, 20, 0⟩ ⟨1, 0, 100, 1, 1, 1⟩ 0 = -250
  ∧ Aras.can_run_job ⟨"t1", 0, "inactive", 0, 1, 1, 1, 20, 0⟩ ⟨1, 0, 100, 1, 1, 1⟩ = true
  ∧ (⟨"t1", 0, "inactive", 0, 1, 1, 1, 20, 0⟩ : Aras.ServerInfo).state ≠ "unavailable" := by
  have hp : Aras.calculate_priority ⟨"t1", 0, "inactive", 0, 1, 1, 1, 20, 0⟩
      ⟨1, 0, 100, 1, 1, 1⟩ 0 = -250 := by
    norm_num [Aras.calculate_priority, Aras.can_run_job, Aras.stateScore, Aras.fit_score,
      Aras.avg_util,
      show ("inactive" : String) ≠ "active" by decide,
      show ("inactive" : String) ≠ "idle" by decide,
      show ("inactive" : String) ≠ "booting" by decide]
  refine ⟨c10_find_best_none _ _ _ ?_, hp, by decide, by decide⟩
  intro e he hne
  rw [List.mem_singleton] at he
  subst he
  rw [hp]
  norm_num

/-! # Claim C3 — backfill exclusivity -/

/-- C3 (counterexample): the claim fails for the client.py engine, which has
no backfill fast-path: for the short job (`est_run_time = 500 ≤ 600`) with an
eligible active server running one job present, `select_best_server` still
picks the idle server. -/
theorem c3_counterexample :
    Client.select_best_server
        [⟨"t1", "1", "active", 0, 1, 1, 1, 1, 1⟩, ⟨"t1", "2", "idle", 0, 2, 2, 2, 0, 0⟩]
        ⟨"1", 0, 500, 1, 1, 1⟩ (fun _ => 60) 0
      = some ⟨"t1", "2", "idle", 0, 2, 2, 2, 0, 0⟩
  ∧ (⟨"1", 0, 500, 1, 1, 1⟩ : Client.Job).est_run_time ≤ 600
  ∧ (⟨"t1", "1", "active", 0, 1, 1, 1, 1, 1⟩ : Client.ServerInfo).state = "active"
  ∧ 0 < (⟨"t1", "1", "active", 0, 1, 1, 1, 1, 1⟩ : Client.ServerInfo).num_running_jobs
  ∧ Client.can_fit_job ⟨"t1", "1", "active", 0, 1, 1, 1, 1, 1⟩ ⟨"1", 0, 500, 1, 1, 1⟩ = true
  ∧ (⟨"t1", "2", "idle", 0, 2, 2, 2, 0, 0⟩ : Client.ServerInfo).state = "idle" := by
  refine ⟨?_, by norm_num, rfl, by norm_num, by decide, rfl⟩
  norm_num [Client.select_best_server, Client.can_fit_job, Client.calculate_server_score,
    Client.stateBonus, Client.is_immediately_available, Client.calculate_resource_waste,
    Client.utilBonus, sortDescBy, insertDescBy, List.filter,
    show ("active" : String) ≠ "idle" by decide,
    show ("active" : String) ≠ "booting" by decide,
    show ("active" : String) ≠ "inactive" by decide]

/-- C3 (amended): backfill exclusivity holds for the ds-test ARAS engine: for
a job with estimated run time at most 600 and at least one directory entry
that is active, has a running job and can run the job, the decision of
`schedule_decision` (backfill first, general scoring only as fallback) is the
key of such an entry — never an idle or inactive server. -/
theorem c3_amended (dir : Aras.Dir) (j : Aras.Job)
    (hest : j.est_run_time ≤ 600)
    (hex : ∃ e ∈ dir, e.2.state = "active" ∧ 0 < e.2.num_running_jobs
      ∧ Aras.can_run_job e.2 j) :
    ∃ e ∈ dir, Aras.schedule_decision dir j = some e.1
      ∧ e.2.state = "active" ∧ 0 < e.2.num_running_jobs ∧ Aras.can_run_job e.2 j := by
  obtain ⟨e0, he0, hP0⟩ := hex
  have hne : dir.filterMap (fun e =>
      if e.2.state = "active" ∧ 0 < e.2.num_running_jobs ∧ Aras.can_run_job e.2 j then
        some (e.1, Aras.backfillScore e.2 j)
      else none) ≠ [] := by
    intro hnil
    rw [List.filterMap_eq_nil_iff] at hnil
    have := hnil e0 he0
    rw [if_pos hP0] at this
    exact absurd this (by simp)
  obtain ⟨c, cs, hs⟩ : ∃ c cs, sortDescBy (fun c => c.2) (dir.filterMap (fun e =>
      if e.2.state = "active" ∧ 0 < e.2.num_running_jobs ∧ Aras.can_run_job e.2 j then
        some (e.1, Aras.backfillScore e.2 j)
      else none)) = c :: cs := by
    cases hsort : sortDescBy (fun c => c.2) (dir.filterMap (fun e =>
        if e.2.state = "active" ∧ 0 < e.2.num_running_jobs ∧ Aras.can_run_job e.2 j then
          some (e.1, Aras.backfillScore e.2 j)
        else none)) with
    | nil =>
        rw [sortDescBy_eq_nil_iff] at hsort
        exact absurd hsort hne
    | cons c cs => exact ⟨c, cs, rfl⟩
  have hbceq : Aras.backfill_candidate dir j j.submit_time = some c.1 := by
    simp only [Aras.backfill_candidate]
    rw [if_neg (by omega), hs]
  have hcand : c ∈ dir.filterMap (fun e =>
      if e.2.state = "active" ∧ 0 < e.2.num_running_jobs ∧ Aras.can_run_job e.2 j then
        some (e.1, Aras.backfillScore e.2 j)
      else none) :=
    mem_sortDescBy (by rw [hs]; exact List.mem_cons_self _ _)
  obtain ⟨e, he, hfe⟩ := List.mem_filterMap.mp hcand
  by_cases hPe : e.2.state = "active" ∧ 0 < e.2.num_running_jobs ∧ Aras.can_run_job e.2 j
  · refine ⟨e, he, ?_, hPe⟩
    unfold Aras.schedule_decision
    rw [hbceq]
    rw [if_pos hPe] at hfe
    have hfst : e.1 = c.1 := congrArg Prod.fst (Option.some.inj hfe)
    rw [← hfst]
  · rw [if_neg hPe] at hfe
    exact absurd hfe (by simp)

/-- C3 (witness): the amended statement at a concrete directory holding one
active busy server and one idle server: the decision is the key of an entry
that is active with a running job. -/
theorem c3_witness :
    ∃ e ∈ ([(("a", 1), ⟨"a", 1, "active", 0, 2, 2, 2, 0, 1⟩),
        (("i", 2), ⟨"i", 2, "idle", 0, 4, 4, 4, 0, 0⟩)] : Aras.Dir),
      Aras.schedule_decision
          [(("a", 1), ⟨"a", 1, "active", 0, 2, 2, 2, 0, 1⟩),
            (("i", 2), ⟨"i", 2, "idle", 0, 4, 4, 4, 0, 0⟩)] ⟨1, 0, 500, 1, 1, 1⟩ = some e.1
      ∧ e.2.state = "active" ∧ 0 < e.2.num_running_jobs
      ∧ Aras.can_run_job e.2 ⟨1, 0, 500, 1, 1, 1⟩ :=
  c3_amended _ _ (by norm_num)
    ⟨(("a", 1), ⟨"a", 1, "active", 0, 2, 2, 2, 0, 1⟩), by simp,
      rfl, by norm_num, by decide⟩

/-! # Claim C7 — per-record parse error recovery -/

namespace Aras

theorem parseLines_skip_bad {bad : Str} {post : List Str}
    (h1 : pyStrip bad ≠ []) (h2 : pyStrip bad ≠ ['.'])
    (h3 : isDataLine (pyStrip bad) = false)
    (h4 : parseRecordParts (pySplitWS (pyStrip bad)) = none) :
    ∀ (pre : List Str) (started : Bool) (dir : Dir),
      parseLines started dir (pre ++ bad :: post) = parseLines started dir (pre ++ post) := by
  intro pre
  induction pre with
  | nil =>
      intro started dir
      simp only [List.nil_append, parseLines, h4]
      rw [if_neg h1, if_neg (by simp [h3])]
      cases started with
      | false => simp
      | true =>
          rw [if_neg (by simp)]
          rw [if_neg h2]
  | cons l ls ih =>
      intro started dir
      simp only [List.cons_append, parseLines]
      by_cases hb : pyStrip l = []
      · rw [if_pos hb, if_pos hb]
        exact ih started dir
      · rw [if_neg hb, if_neg hb]
        by_cases hdl : isDataLine (pyStrip l) = true
        · rw [if_pos hdl, if_pos hdl]
          exact ih true dir
        · rw [if_neg hdl, if_neg hdl]
          by_cases hst : started = false
          · rw [if_pos hst, if_pos hst]
            exact ih started dir
          · rw [if_neg hst, if_neg hst]
            by_cases hdot : pyStrip l = ['.']
            · rw [if_pos hdot, if_pos hdot]
            · rw [if_neg hdot, if_neg hdot]
              cases hp : parseRecordParts (pySplitWS (pyStrip l)) with
              | none => exact ih started dir
              | some r =>
                  have hrec := ih started (upsertD dir (r.type_name, r.server_id) r)
                  simp only [List.append_eq]
                  rw [hrec]

end Aras

/-- C7 (counterexample): the claim "parsing … completes without raising" is
false for client.py's record parser: a record line with a non-numeric
available-cores field makes `parse_server_info` raise an uncaught
`ValueError` inside `ServerInfo.__init__` (modelled by `Except.error ()`),
aborting the bulk parse instead of skipping the record.  (A wrong field count
is the only shape it skips.) -/
theorem c7_counterexample :
    Client.parse_server_info "t1 0 idle 0 X 1024 10 0 0".toList = Except.error ()
  ∧ Client.parse_server_info "t1 0 idle".toList = Except.ok none :=
  ⟨rfl, rfl⟩

/-- C7 (amended): per-record recovery holds for the ds-test/aras_client
parser: a malformed record line (non-blank, not a header, not the sentinel,
unparsable — wrong field count or non-numeric field) inside the block is
skipped and the parse result (records and directory) is exactly that of the
block without that line.  client.py's `parse_server_info`, by contrast, only
tolerates a wrong field count: a non-numeric numeric field raises. -/
theorem c7_amended (bad : Str) (pre post : List Str) (dir : Aras.Dir)
    (h1 : pyStrip bad ≠ []) (h2 : pyStrip bad ≠ ['.'])
    (h3 : Aras.isDataLine (pyStrip bad) = false)
    (h4 : Aras.parseRecordParts (pySplitWS (pyStrip bad)) = none) :
    Aras.parseLines false dir (pre ++ bad :: post) =
      Aras.parseLines false dir (pre ++ post) :=
  Aras.parseLines_skip_bad h1 h2 h3 h4 pre false dir

/-- C7 (witness): the amended statement at a concrete block: the malformed
line `"t1 X idle 0 4 1024 10 0 0"` (non-numeric server id) is dropped and the
parse of the block equals the parse of the block without it. -/
theorem c7_witness :
    Aras.parseLines false []
        ["DATA 2 0".toList, "t1 0 idle 0 4 1024 10 0 0".toList,
          "t1 X idle 0 4 1024 10 0 0".toList] =
      Aras.parseLines false [] ["DATA 2 0".toList, "t1 0 idle 0 4 1024 10 0 0".toList] :=
  c7_amended "t1 X idle 0 4 1024 10 0 0".toList
    ["DATA 2 0".toList, "t1 0 idle 0 4 1024 10 0 0".toList] [] []
    (by decide) (by decide) (by decide) (by decide)

/-! # Claim C8 — record-shape tolerance -/

/-- C8 (counterexample): extra total-capacity fields inserted before the
canonical fields are not tolerated by the ds-test record parser.  Placed at
the very front (`"16 32000 200 …"`), they shift the bindings and the
`int(start_time)` conversion hits the token `"t1"`, so the record is dropped
entirely; placed between `start_time` and the availability triple
(`"… 0 99 99999 999 4 1024 10 0 0"`), the record parses but the 9 canonical
fields are bound to the wrong values (cores `99` instead of `4`, waiting
`4` instead of `0`, running `1024` instead of `0`). -/
theorem c8_counterexample :
    Aras.parseRecordParts (pySplitWS "16 32000 200 t1 0 idle 0 4 1024 10 0 0".toList) = none
  ∧ Aras.parseRecordParts (pySplitWS "t1 0 idle 0 99 99999 999 4 1024 10 0 0".toList)
      = some ⟨"t1", 0, "idle", 0, 99, 99999, 999, 4, 1024⟩
  ∧ (⟨"t1", 0, "idle", 0, 99, 99999, 999, 4, 1024⟩ : Aras.ServerInfo)
      ≠ ⟨"t1", 0, "idle", 0, 4, 1024, 10, 0, 0⟩ := by
  refine ⟨rfl, rfl, by decide⟩

/-- C8 (amended): the ds-test record parser tolerates an optional leading
`SENT` token and extra fields appended *after* the 9 canonical fields, and in
those shapes binds the 9 canonical fields correctly; extra total-capacity
fields inserted before the canonical fields are not tolerated (they shift the
bindings — see the counterexample). -/
theorem c8_amended :
    (∀ (t i st stt c m d w r : Str) (extra : List Str), t ≠ "SENT".toList →
      Aras.parseRecordParts
          ("SENT".toList :: t :: i :: st :: stt :: c :: m :: d :: w :: r :: extra)
        = Aras.parseRecordParts (t :: i :: st :: stt :: c :: m :: d :: w :: r :: extra))
  ∧ (∀ (t i st stt c m d w r : Str) (extra : List Str), t ≠ "SENT".toList →
      Aras.parseRecordParts (t :: i :: st :: stt :: c :: m :: d :: w :: r :: extra)
        = Aras.parseRecordParts [t, i, st, stt, c, m, d, w, r])
  ∧ (∀ (t i st stt c m d w r : Str) (iv stv cv mv dv wv rv : Int),
      t ≠ "SENT".toList →
      pyInt i = some iv → pyInt stt = some stv → pyInt c = some cv →
      pyInt m = some mv → pyInt d = some dv → pyInt w = some wv →
      pyInt r = some rv →
      Aras.parseRecordParts [t, i, st, stt, c, m, d, w, r]
        = some ⟨strOf t, iv, strOf st, stv, cv, mv, dv, wv, rv⟩) := by
  refine ⟨?_, ?_, ?_⟩
  · intro t i st stt c m d w r extra ht
    simp only [Aras.parseRecordParts, List.headD_cons, if_true]
    rw [if_neg ht]
    rw [if_pos (show 1 + 9 ≤
        ("SENT".toList :: t :: i :: st :: stt :: c :: m :: d :: w :: r :: extra).length by
      simp only [List.length_cons]; omega)]
    rw [if_pos (show 0 + 9 ≤
        (t :: i :: st :: stt :: c :: m :: d :: w :: r :: extra).length by
      simp only [List.length_cons]; omega)]
    rfl
  · intro t i st stt c m d w r extra ht
    simp only [Aras.parseRecordParts, List.headD_cons]
    rw [if_neg ht]
    rw [if_pos (show 0 + 9 ≤
        (t :: i :: st :: stt :: c :: m :: d :: w :: r :: extra).length by
      simp only [List.length_cons]; omega)]
    rw [if_pos (show 0 + 9 ≤ ([t, i, st, stt, c, m, d, w, r] : List Str).length by
      simp only [List.length_cons]; omega)]
    rfl
  · intro t i st stt c m d w r iv stv cv mv dv wv rv ht hi hstt hc hm hd hw hr
    simp only [Aras.parseRecordParts, List.headD_cons]
    rw [if_neg ht]
    rw [if_pos (show 0 + 9 ≤ ([t, i, st, stt, c, m, d, w, r] : List Str).length by
      simp only [List.length_cons]; omega)]
    have e1 : pyInt (([t, i, st, stt, c, m, d, w, r] : List Str).getD (0 + 1) []) = some iv := hi
    have e2 : pyInt (([t, i, st, stt, c, m, d, w, r] : List Str).getD (0 + 3) []) = some stv := hstt
    have e3 : pyInt (([t, i, st, stt, c, m, d, w, r] : List Str).getD (0 + 4) []) = some cv := hc
    have e4 : pyInt (([t, i, st, stt, c, m, d, w, r] : List Str).getD (0 + 5) []) = some mv := hm
    have e5 : pyInt (([t, i, st, stt, c, m, d, w, r] : List Str).getD (0 + 6) []) = some dv := hd
    have e6 : pyInt (([t, i, st, stt, c, m, d, w, r] : List Str).getD (0 + 7) []) = some wv := hw
    have e7 : pyInt (([t, i, st, stt, c, m, d, w, r] : List Str).getD (0 + 8) []) = some rv := hr
    rw [e1, e2, e3, e4, e5, e6, e7]
    rfl

/-- C8 (witness): the amended statement at a concrete record line: with and
without the leading `SENT`, and with trailing extras, the canonical fields
bind to the same values. -/
theorem c8_witness :
    Aras.parseRecordParts
        ("SENT".toList :: "web".toList :: "3".toList :: "idle".toList :: "0".toList ::
          "4".toList :: "1024".toList :: "10".toList :: "0".toList :: "0".toList :: ["x".toList])
      = Aras.parseRecordParts
        ("web".toList :: "3".toList :: "idle".toList :: "0".toList :: "4".toList ::
          "1024".toList :: "10".toList :: "0".toList :: "0".toList :: ["x".toList])
  ∧ Aras.parseRecordParts ["web".toList, "3".toList, "idle".toList, "0".toList, "4".toList,
        "1024".toList, "10".toList, "0".toList, "0".toList]
      = some ⟨strOf "web".toList, 3, strOf "idle".toList, 0, 4, 1024, 10, 0, 0⟩ := by
  constructor
  · exact c8_amended.1 "web".toList "3".toList "idle".toList "0".toList "4".toList
      "1024".toList "10".toList "0".toList "0".toList ["x".toList] (by decide)
  · exact c8_amended.2.2 "web".toList "3".toList "idle".toList "0".toList "4".toList
      "1024".toList "10".toList "0".toList "0".toList 3 0 4 1024 10 0 0
      (by decide) rfl rfl rfl rfl rfl rfl rfl

/-! # Claim C9 — idempotent parsing with replace semantics -/

namespace Aras

theorem lookupDir_upsertD (d : Dir) (k k2 : String × Int) (v : ServerInfo) :
    lookupDir k2 (upsertD d k v) = if k = k2 then some v else lookupDir k2 d := by
  induction d with
  | nil =>
      by_cases h : k = k2 <;> simp [upsertD, lookupDir, h]
  | cons e rest ih =>
      obtain ⟨k', v'⟩ := e
      by_cases hk : k' = k
      · subst hk
        simp only [upsertD, if_pos rfl]
        by_cases h2 : k' = k2
        · subst h2
          simp [lookupDir]
        · simp [lookupDir, h2]
      · simp only [upsertD, if_neg hk]
        by_cases h2 : k' = k2
        · subst h2
          have hne : k ≠ k' := fun h => hk h.symm
          simp [lookupDir, if_neg hne]
        · simp only [lookupDir, if_neg h2]
          exact ih

theorem lookupDir_feedD (k : String × Int) :
    ∀ (rs : List ServerInfo) (d : Dir),
      lookupDir k (feedD d rs) =
        match findLastRec k rs with
        | some r => some r
        | none => lookupDir k d := by
  intro rs
  induction rs with
  | nil => intro d; rfl
  | cons r rest ih =>
      intro d
      simp only [feedD, findLastRec]
      rw [ih]
      cases hfl : findLastRec k rest with
      | some v => rfl
      | none =>
          simp only []
          rw [lookupDir_upsertD]
          by_cases hk : (r.type_name, r.server_id) = k
          · rw [if_pos hk, if_pos hk]
          · rw [if_neg hk, if_neg hk]

theorem lookupDir_feedD_idem (k : String × Int) (rs : List ServerInfo) (d : Dir) :
    lookupDir k (feedD (feedD d rs) rs) = lookupDir k (feedD d rs) := by
  rw [lookupDir_feedD, lookupDir_feedD]
  cases findLastRec k rs <;> rfl

theorem parseLines_snd : ∀ (lines : List Str) (started : Bool) (dir : Dir),
    (parseLines started dir lines).2 = feedD dir (extractRecs started lines) := by
  intro lines
  induction lines with
  | nil => intro started dir; rfl
  | cons l ls ih =>
      intro started dir
      simp only [parseLines, extractRecs]
      by_cases hb : pyStrip l = []
      · rw [if_pos hb, if_pos hb]
        exact ih started dir
      · rw [if_neg hb, if_neg hb]
        by_cases hdl : isDataLine (pyStrip l) = true
        · rw [if_pos hdl, if_pos hdl]
          exact ih true dir
        · rw [if_neg hdl, if_neg hdl]
          by_cases hst : started = false
          · rw [if_pos hst, if_pos hst]
            exact ih started dir
          · rw [if_neg hst, if_neg hst]
            by_cases hdot : pyStrip l = ['.']
            · rw [if_pos hdot, if_pos hdot]
              rfl
            · rw [if_neg hdot, if_neg hdot]
              cases hp : parseRecordParts (pySplitWS (pyStrip l)) with
              | none => exact ih started dir
              | some r =>
                  simp only [feedD]
                  exact ih started (upsertD dir (r.type_name, r.server_id) r)

end Aras

/-- C9: feeding the same bulk block to `parse_gets_response` twice yields a
directory with the same key-value contents as feeding it once: every record
is stored with dict-assignment (replace, never merge) under
`(type_name, server_id)`, so the second pass rewrites each key with the same
value. -/
theorem c9_idempotent_refresh (dir : Aras.Dir) (response : Str) (k : String × Int) :
    Aras.lookupDir k
        (Aras.parse_gets_response (Aras.parse_gets_response dir response).2 response).2
      = Aras.lookupDir k (Aras.parse_gets_response dir response).2 := by
  unfold Aras.parse_gets_response
  rw [Aras.parseLines_snd (splitNL (pyStrip response)) false dir]
  rw [Aras.parseLines_snd (splitNL (pyStrip response)) false
    (Aras.feedD dir (Aras.extractRecs false (splitNL (pyStrip response))))]
  exact Aras.lookupDir_feedD_idem k _ dir

/-! # Claim C6 — OK acknowledgment ordering -/

/-- C6 (counterexample): the moto client violates the ordering: in its `GETS
All` exchange it reads the header and all record lines first and sends `OK`
only afterwards, so a record line is consumed before the first `send "OK"` of
the trace. -/
theorem c6_counterexample :
    Moto.gets_trace ["DATA 1 1", "t1 0 idle 0 4 1024 10 0 0", "."]
      = some [Ev.send "GETS All", Ev.recv "DATA 1 1",
          Ev.recv "t1 0 idle 0 4 1024 10 0 0", Ev.send "OK", Ev.recv "."]
  ∧ ¬ noRecordBeforeOK
      [Ev.send "GETS All", Ev.recv "DATA 1 1",
        Ev.recv "t1 0 idle 0 4 1024 10 0 0", Ev.send "OK", Ev.recv "."]
      ["t1 0 idle 0 4 1024 10 0 0"] := by
  constructor
  · rfl
  · unfold noRecordBeforeOK
    decide

/-- C6 (amended): the ordering holds for the ds-test client: `communicate`
sends `OK` immediately after recognising a `DATA` header and before reading
any line of the block, so no record line (line before the `"."` sentinel) is
consumed before the first `OK`.  The moto client instead acknowledges only
after the whole block. -/
theorem c6_amended (header : String) (rest : List String)
    (hD : startsWithC header.toList "DATA".toList = true)
    (hne : header ∉ linesBeforeDot rest) :
    noRecordBeforeOK (Aras.gets_trace (header :: rest)) (linesBeforeDot rest) := by
  have hD2 : startsWithC header.data ['D', 'A', 'T', 'A'] = true := hD
  have htrace : Aras.gets_trace (header :: rest)
      = Ev.send "GETS All" :: Ev.recv header :: Ev.send "OK"
          :: Aras.recvUntilDotEvs rest := by
    simp [Aras.gets_trace, hD2]
  intro e he r hr
  rw [htrace] at he
  have htw : (Ev.send "GETS All" :: Ev.recv header :: Ev.send "OK"
        :: Aras.recvUntilDotEvs rest).takeWhile (fun e => decide (e ≠ Ev.send "OK"))
      = [Ev.send "GETS All", Ev.recv header] := rfl
  rw [htw] at he
  rcases List.mem_cons.mp he with rfl | he2
  · intro hcontra
    cases hcontra
  · rcases List.mem_cons.mp he2 with rfl | he3
    · intro hcontra
      injection hcontra with heq
      exact hne (by rwa [heq])
    · cases he3

/-- C6 (witness): the amended statement at a concrete exchange: header
`"DATA 2 0"` and two record lines before the sentinel. -/
theorem c6_witness :
    noRecordBeforeOK
      (Aras.gets_trace ["DATA 2 0", "t1 0 idle 0 4 1024 10 0 0",
        "t1 1 active 0 4 1024 10 1 1", "."])
      (linesBeforeDot ["t1 0 idle 0 4 1024 10 0 0", "t1 1 active 0 4 1024 10 1 1", "."]) :=
  c6_amended "DATA 2 0" ["t1 0 idle 0 4 1024 10 0 0", "t1 1 active 0 4 1024 10 1 1", "."]
    (by decide) (by decide)

/-! # Claim C2 — framing reassembly -/

/-- C2 (counterexample): `get_capable_servers` (client.py) is not
reassembly-invariant: delivering the whole bulk block (header, one record,
sentinel) in a single read parses zero records — the lines that follow the
`DATA` header inside the first chunk are discarded when the record loop
starts from a fresh empty buffer — while splitting the same bytes after the
header line parses the record. -/
theorem c2_counterexample :
    Client.get_capable_servers ["DATA 1 0\nt1 0 idle 0 4 1024 10 0 0\n.\n".toList]
      = Except.ok []
  ∧ Client.get_capable_servers
        ["DATA 1 0\n".toList, "t1 0 idle 0 4 1024 10 0 0\n.\n".toList]
      = Except.ok [⟨"t1", "0", "idle", 0, 4, 1024, 10, 0, 0⟩]
  ∧ "DATA 1 0\nt1 0 idle 0 4 1024 10 0 0\n.\n".toList
      = "DATA 1 0\n".toList ++ "t1 0 idle 0 4 1024 10 0 0\n.\n".toList :=
  ⟨rfl, rfl, by decide⟩

namespace ArasSock

theorem readLinesUntilDot_of_none {cs : Str} {chunks : List Str}
    (h : read_lineAux cs chunks = none) : readLinesUntilDot cs chunks = [] := by
  rw [readLinesUntilDot.eq_def]
  split
  · rfl
  · rename_i l cs' rest heq
    rw [h] at heq
    cases heq

theorem readLinesUntilDot_of_some {cs : Str} {chunks : List Str} {l cs' : Str}
    {rest : List Str} (h : read_lineAux cs chunks = some (l, cs', rest)) :
    readLinesUntilDot cs chunks =
      if pyStrip l = ['.'] then [] else l :: readLinesUntilDot cs' rest := by
  rw [readLinesUntilDot.eq_def]
  split
  · rename_i heq
    rw [h] at heq
    cases heq
  · rename_i l2 cs2 rest2 heq
    rw [h] at heq
    injection heq with h1
    injection h1 with h2 h3
    injection h3 with h4 h5
    subst h2
    subst h4
    subst h5
    rfl

theorem readLinesUntilDotFlat_of_none {s : Str} (h : read_lineFlat s = none) :
    readLinesUntilDotFlat s = [] := by
  rw [readLinesUntilDotFlat.eq_def]
  split
  · rfl
  · rename_i l r heq
    rw [h] at heq
    cases heq

theorem readLinesUntilDotFlat_of_some {s l r : Str}
    (h : read_lineFlat s = some (l, r)) :
    readLinesUntilDotFlat s =
      if pyStrip l = ['.'] then [] else l :: readLinesUntilDotFlat r := by
  rw [readLinesUntilDotFlat.eq_def]
  split
  · rename_i heq
    rw [h] at heq
    cases heq
  · rename_i l2 r2 heq
    rw [h] at heq
    injection heq with h1
    injection h1 with h2 h3
    subst h2
    subst h3
    rfl

theorem readLinesUntilDot_flat : ∀ (cs : Str) (chunks : List Str),
    readLinesUntilDot cs chunks = readLinesUntilDotFlat (cs ++ flatChunks chunks) := by
  intro cs chunks
  induction cs, chunks using readLinesUntilDot.induct with
  | case1 cs chunks hnone =>
      have hf : read_lineFlat (cs ++ flatChunks chunks) = none := by
        have hb := read_lineAux_flat cs chunks
        rw [hnone] at hb
        simpa using hb.symm
      rw [readLinesUntilDot_of_none hnone, readLinesUntilDotFlat_of_none hf]
  | case2 cs chunks l cs' rest hsome hdot =>
      have hf : read_lineFlat (cs ++ flatChunks chunks) = some (l, cs' ++ flatChunks rest) := by
        have hb := read_lineAux_flat cs chunks
        rw [hsome] at hb
        simpa using hb.symm
      rw [readLinesUntilDot_of_some hsome, readLinesUntilDotFlat_of_some hf,
        if_pos hdot, if_pos hdot]
  | case3 cs chunks l cs' rest hsome hdot ih =>
      have hf : read_lineFlat (cs ++ flatChunks chunks) = some (l, cs' ++ flatChunks rest) := by
        have hb := read_lineAux_flat cs chunks
        rw [hsome] at hb
        simpa using hb.symm
      rw [readLinesUntilDot_of_some hsome, readLinesUntilDotFlat_of_some hf,
        if_neg hdot, if_neg hdot, ih]

end ArasSock

/-- C2 (amended): reassembly invariance does hold for the byte-at-a-time
reader of ds-test/client.py: `read_until_dot` returns the same joined lines
for every chunking of the byte stream as for the single unfragmented read of
the concatenation.  It fails for `get_capable_servers` of client.py (see the
counterexample): record bytes arriving in the same chunk as the `DATA` header
are discarded, so a single-read delivery loses records. -/
theorem c2_amended (chunks : List Str) :
    ArasSock.read_until_dot chunks = ArasSock.read_until_dot [flatChunks chunks] := by
  unfold ArasSock.read_until_dot
  rw [ArasSock.readLinesUntilDot_flat, ArasSock.readLinesUntilDot_flat]
  simp [flatChunks]
